import Mathlib

/-!
Verification of the retrieval-evaluation harness of the langwatch/cookbooks
repository: the metric functions (precision, recall, reciprocal rank), the
per-tool recall breakdown, the tool-selection test driver, and the
hybrid-vs-vector experiment loop, shallowly embedded in Lean 4.

Python floats are modelled by `ℚ`; a Python division is modelled by a checked
division that returns `none` exactly when Python would raise
`ZeroDivisionError`; a computation through which an exception may propagate is
`Option`- or `Except`-valued.  The identifier `recall` is a Lean command
keyword, so the source's `recall` functions are embedded under the name
`recall'`.
-/

/-- Checked division on `ℚ`: `none` models Python's `ZeroDivisionError`. -/
def qdiv (a b : ℚ) : Option ℚ :=
  if b = 0 then none else some (a / b)

/-- Python's `round(a / b, 2)` for natural `a`, `b` with `b > 0`: round the
ratio to two decimal places, half to even (banker's rounding), computed on the
scaled numerator `100 * a` over `b`. -/
def pyRound2Nat (a b : ℕ) : ℚ :=
  let n := 100 * a
  let q := n / b
  let r := n % b
  let rounded : ℕ :=
    if 2 * r < b then q
    else if b < 2 * r then q + 1
    else if q % 2 = 0 then q else q + 1
  (rounded : ℚ) / 100

/-- Python's `round(a / b, 2)` as a checked operation: `none` models the
`ZeroDivisionError` of the inner division when `b = 0`. -/
def qdivRound2 (a b : ℕ) : Option ℚ :=
  if b = 0 then none else some (pyRound2Nat a b)

/-- Python's `round(q, 2)` for a non-negative rational (every rounded value in
the sources is a ratio of non-negative counts): round the reduced fraction
`q.num / q.den` to two decimal places, half to even. -/
def pyRound2 (q : ℚ) : ℚ :=
  pyRound2Nat q.num.toNat q.den

/-- Run an `Option`-valued function over a list, propagating failure
(the `Option` analogue of a Python loop in which any iteration may raise). -/
def optMapList {α β : Type} (f : α → Option β) : List α → Option (List β)
  | [] => some []
  | x :: xs =>
    match f x, optMapList f xs with
    | some b, some bs => some (b :: bs)
    | _, _ => none

namespace ToolEval

/-!
Embedding of the tool-selection evaluation notebook
(`calculate_precision`, `calculate_recall`, the `asyncio.gather` run loop,
and `calculate_per_tool_recall`).

A tool name is a `String`; a query's expected and actual tool-call lists are
`List String`.  A per-tool-breakdown input row is the pair
`(expected tool list, actual tool list)` of one query of the dataframe.
-/

/-- `calculate_precision(model_tool_call, expected_tool_call)`:
`0.0` on an empty call list, otherwise
`round(sum(1 for tool in model_tool_call if tool in expected_tool_call) / len(model_tool_call), 2)`. -/
def calculate_precision (model_tool_call expected_tool_call : List String) : Option ℚ :=
  if model_tool_call.isEmpty then some 0
  else
    qdivRound2 (model_tool_call.countP (fun tool => decide (tool ∈ expected_tool_call)))
      model_tool_call.length

/-- `calculate_recall(model_tool_call, expected_tool_call)`:
`1.0` on an empty expected list, `0.0` on an empty call list, otherwise
`round(sum(1 for tool in expected_tool_call if tool in model_tool_call) / len(expected_tool_call), 2)`. -/
def calculate_recall (model_tool_call expected_tool_call : List String) : Option ℚ :=
  if expected_tool_call.isEmpty then some 1
  else if model_tool_call.isEmpty then some 0
  else
    qdivRound2 (expected_tool_call.countP (fun tool => decide (tool ∈ model_tool_call)))
      expected_tool_call.length

/-- `await asyncio.gather(*coros)` without `return_exceptions`: if any
coroutine raised, the exception propagates and no result list is produced. -/
def gatherAll {α : Type} : List (Except String α) → Except String (List α)
  | [] => .ok []
  | o :: rest =>
    match o with
    | .error e => .error e
    | .ok a => (gatherAll rest).map (a :: ·)

/-- One row of the evaluation dataframe: query, expected tools, actual tools,
precision, recall (the `time` column is external timing and is not modelled). -/
structure TestRow where
  query : String
  expected : List String
  actual : List String
  precision : Option ℚ
  recall' : Option ℚ
deriving DecidableEq

/-- The notebook's run loop: gather the per-query adapter outcomes
(`process_user_query` results, abstracted to either extracted tool-call lists
or a raised error), zip them with the tests, and score each row with
`calculate_precision` / `calculate_recall`. -/
def run_tests (tests : List (String × List String))
    (outcomes : List (Except String (List String))) : Except String (List TestRow) :=
  (gatherAll outcomes).map fun actuals =>
    (tests.zip actuals).map fun ta =>
      { query := ta.1.1
        expected := ta.1.2
        actual := ta.2
        precision := calculate_precision ta.2 ta.1.2
        recall' := calculate_recall ta.2 ta.1.2 }

/-- `all_tools` of `calculate_per_tool_recall`: every tool occurring in some
row's expected or actual list (each once). -/
def all_tools (df : List (List String × List String)) : List String :=
  ((df.map fun r => r.1 ++ r.2).flatten).dedup

/-- The `expected_calls[tool] += 1` tally of `calculate_per_tool_recall`:
the number of rows whose expected set contains the tool. -/
def countExpected : List (List String × List String) → String → ℕ
  | [], _ => 0
  | r :: rest, tool => (if tool ∈ r.1 then 1 else 0) + countExpected rest tool

/-- The `correct_calls[tool] += 1` tally of `calculate_per_tool_recall`:
the number of rows whose expected set contains the tool and whose actual set
contains it too. -/
def countCorrect : List (List String × List String) → String → ℕ
  | [], _ => 0
  | r :: rest, tool => (if tool ∈ r.1 ∧ tool ∈ r.2 then 1 else 0) + countCorrect rest tool

/-- One output row of the per-tool breakdown. -/
structure ToolRow where
  tool : String
  correct_calls : ℕ
  expected_calls : ℕ
  recall' : ℚ
deriving DecidableEq

/-- The `results` list built inside `calculate_per_tool_recall`: one row per
tool of `all_tools`, with the exact ratio
`recall = correct_calls[tool] / expected_calls[tool] if expected_calls[tool] > 0 else 0`. -/
def per_tool_results (df : List (List String × List String)) : List ToolRow :=
  (all_tools df).map fun tool =>
    { tool := tool
      correct_calls := countCorrect df tool
      expected_calls := countExpected df tool
      recall' :=
        if 0 < countExpected df tool then
          (countCorrect df tool : ℚ) / countExpected df tool
        else 0 }

/-- Insert a row into a list sorted descending by `recall`, before the first
row whose recall is not larger (so equal-recall rows keep their relative
order). -/
def insertDescByRecall (row : ToolRow) : List ToolRow → List ToolRow
  | [] => [row]
  | r :: rest =>
    if row.recall' < r.recall' then r :: insertDescByRecall row rest
    else row :: r :: rest

/-- `sort_values("recall", ascending=False)`, modelled as a stable insertion
sort descending by `recall` (pandas does not fix the order of ties). -/
def sortDescByRecall : List ToolRow → List ToolRow
  | [] => []
  | r :: rest => insertDescByRecall r (sortDescByRecall rest)

/-- `calculate_per_tool_recall(df)`: build the per-tool `results` rows, then
return `pd.DataFrame(results).sort_values("recall", ascending=False).round(2)`
— the rows sorted descending by recall, with each recall value rounded to two
decimal places (the integer count columns are unchanged by `.round(2)`). -/
def calculate_per_tool_recall (df : List (List String × List String)) : List ToolRow :=
  (sortDescByRecall (per_tool_results df)).map fun row =>
    { row with recall' := pyRound2 row.recall' }

end ToolEval

namespace HybridVsVector

/-!
Embedding of the hybrid-vs-vector search notebook: `recall`, `mrr`,
`evaluate_search`, `aggregate_metrics` and the `k_values` results loop.
A document id is a `String`.  A search strategy is a named pure function
`(query, k) ↦ ranked id list` (the table and embedding arguments of the
source are fixed external state folded into the function).
-/

/-- Number of distinct elements of `retrieved` that also occur in `expected`:
`len(set(retrieved).intersection(set(expected)))`. -/
def interCard (retrieved expected : List String) : ℕ :=
  (retrieved.dedup.filter (fun d => decide (d ∈ expected))).length

/-- The notebook's `recall(retrieved, expected)`:
`len(set(retrieved) & set(expected)) / len(expected)`, with NO emptiness
guard, so it is `none` (`ZeroDivisionError`) when `expected` is empty. -/
def recall' (retrieved expected : List String) : Option ℚ :=
  qdiv (interCard retrieved expected) expected.length

/-- The scanning loop of `mrr`: `for rank, doc_id in enumerate(retrieved, 1)`. -/
def mrrGo (expected : List String) : List String → ℕ → Option ℚ
  | [], _ => some 0
  | d :: rest, rank =>
    if d ∈ expected then qdiv 1 (rank : ℚ) else mrrGo expected rest (rank + 1)

/-- The notebook's `mrr(retrieved, expected)`: `1.0 / rank` at the first
position (1-indexed) whose id is in `expected`, else `0.0`. -/
def mrr (retrieved expected : List String) : Option ℚ :=
  mrrGo expected retrieved 1

/-- Rank (1-indexed) of the first element of the list that lies in `expected`,
`none` when there is none.  Stated from the spec's words, to compare with `mrr`. -/
def firstHit (expected : List String) : List String → Option ℕ
  | [] => none
  | d :: rest =>
    if d ∈ expected then some 1 else (firstHit expected rest).map (· + 1)

/-- Exception-free value of `mrr` (used to state theorems): `1/rank` at the
first hit, `0` when no element of the result is expected. -/
def mrrVal (retrieved expected : List String) : ℚ :=
  match firstHit expected retrieved with
  | some r => 1 / (r : ℚ)
  | none => 0

/-- Exception-free value of the notebook's `recall` when `expected` is non-empty. -/
def recallVal (retrieved expected : List String) : ℚ :=
  (interCard retrieved expected : ℚ) / expected.length

/-- `evaluate_search`: score every strategy on every `(query, expected_ids)`
pair at result size `k`, producing per strategy (in registry insertion order)
the per-query `(recall, mrr)` records in query order; a `ZeroDivisionError`
in any metric propagates. -/
def evaluate_search (strategies : List (String × (String → ℕ → List String)))
    (queries : List (String × List String)) (k : ℕ) :
    Option (List (String × List (ℚ × ℚ))) :=
  optMapList
    (fun s =>
      (optMapList
        (fun q => do
          let r ← recall' (s.2 q.1 k) q.2
          let m ← mrr (s.2 q.1 k) q.2
          pure (r, m))
        queries).map fun recs => (s.1, recs))
    strategies

/-- `np.mean` of a list of floats; `none` models the undefined (`nan`) mean of
an empty list. -/
def npMean (xs : List ℚ) : Option ℚ :=
  if xs.isEmpty then none else some (xs.sum / xs.length)

/-- Total arithmetic mean, used to state theorems about non-empty groups. -/
def meanVal (xs : List ℚ) : ℚ :=
  xs.sum / xs.length

/-- `aggregate_metrics`: per strategy, the mean recall and mean mrr of its
per-query records. -/
def aggregate_metrics (metrics : List (String × List (ℚ × ℚ))) :
    Option (List (String × ℚ × ℚ)) :=
  optMapList
    (fun mv => do
      let r ← npMean (mv.2.map Prod.fst)
      let m ← npMean (mv.2.map Prod.snd)
      pure (mv.1, r, m))
    metrics

/-- The notebook's results loop: for each `k` in `k_values`, evaluate all
strategies, aggregate, and append one `(k, method, recall, mrr)` row per
strategy in insertion order. -/
def run_experiment (strategies : List (String × (String → ℕ → List String)))
    (queries : List (String × List String)) (k_values : List ℕ) :
    Option (List (ℕ × String × ℚ × ℚ)) :=
  (optMapList
    (fun k => do
      let metrics ← evaluate_search strategies queries k
      let summary ← aggregate_metrics metrics
      pure (summary.map fun row => (k, row.1, row.2.1, row.2.2)))
    k_values).map List.flatten

end HybridVsVector

namespace RagGrpo

/-!
Embedding of `recall_score` from the GRPO agent notebook.  Python strings are
modelled as `String`; `label in doc` is substring containment on the lowered
character lists.
-/

/-- Lower-cased character list of a string (`s.lower()`). -/
def lowerChars (s : String) : List Char :=
  s.toList.map Char.toLower

/-- `sub in l` for Python strings, on character lists: `sub` occurs as a
contiguous segment of `l`. -/
def charsContain (l sub : List Char) : Bool :=
  (List.range (l.length + 1)).any (fun i => (l.drop i).take sub.length == sub)

/-- `recall_score(example, pred)`: lower retrieved docs and answer labels;
`0.0` when there are no labels, else the fraction of labels occurring as a
substring of some retrieved doc. -/
def recall_score (retrieved_docs answers : List String) : Option ℚ :=
  let predictions := retrieved_docs.map lowerChars
  let labels := answers.map lowerChars
  if labels.isEmpty then some 0
  else
    qdiv (labels.countP (fun label => predictions.any (fun doc => charsContain doc label)))
      labels.length

end RagGrpo

/-! ## Helper lemmas -/

theorem qdivRound2_isSome (a b : ℕ) : (qdivRound2 a b).isSome ↔ b ≠ 0 := by
  by_cases h : b = 0 <;> simp [qdivRound2, h]

theorem qdiv_natCast_isSome (a : ℚ) (b : ℕ) : (qdiv a (b : ℚ)).isSome ↔ b ≠ 0 := by
  by_cases h : b = 0 <;> simp [qdiv, h]

theorem mrrGo_succ (expected : List String) (retrieved : List String) :
    ∀ n : ℕ,
      HybridVsVector.mrrGo expected retrieved (n + 1) =
        some (match HybridVsVector.firstHit expected retrieved with
          | some r => 1 / ((n + r : ℕ) : ℚ)
          | none => 0) := by
  induction retrieved with
  | nil => intro n; rfl
  | cons d rest ih =>
    intro n
    by_cases hd : d ∈ expected
    · simp [HybridVsVector.mrrGo, HybridVsVector.firstHit, hd, qdiv]
      exact_mod_cast Nat.succ_ne_zero n
    · rw [show HybridVsVector.mrrGo expected (d :: rest) (n + 1) =
        HybridVsVector.mrrGo expected rest (n + 1 + 1) by simp [HybridVsVector.mrrGo, hd]]
      rw [ih (n + 1)]
      have hfirst : HybridVsVector.firstHit expected (d :: rest) =
          (HybridVsVector.firstHit expected rest).map (· + 1) := by
        simp [HybridVsVector.firstHit, hd]
      rw [hfirst]
      cases hfh : HybridVsVector.firstHit expected rest with
      | none => simp [hfh]
      | some r =>
        show some (1 / ((n + 1 + r : ℕ) : ℚ)) = some (1 / ((n + (r + 1) : ℕ) : ℚ))
        rw [show n + 1 + r = n + (r + 1) by omega]

theorem mrr_eq_mrrVal (retrieved expected : List String) :
    HybridVsVector.mrr retrieved expected = some (HybridVsVector.mrrVal retrieved expected) := by
  have h := mrrGo_succ expected retrieved 0
  rw [HybridVsVector.mrr, show (1 : ℕ) = 0 + 1 from rfl, h]
  cases hfh : HybridVsVector.firstHit expected retrieved with
  | none => simp [HybridVsVector.mrrVal, hfh]
  | some r => simp [HybridVsVector.mrrVal, hfh]

theorem recall_eq_recallVal (retrieved expected : List String) (h : expected ≠ []) :
    HybridVsVector.recall' retrieved expected =
      some (HybridVsVector.recallVal retrieved expected) := by
  have hlen : expected.length ≠ 0 := by simpa using h
  simp [HybridVsVector.recall', HybridVsVector.recallVal, qdiv, hlen]

/-! ## Claims about the metric functions -/

/-- C1: the spec says `recall(result, []) == 1.0` for any result, without error.
Counterexample: the hybrid notebook's `recall` divides by `len(expected)` with
no guard and raises `ZeroDivisionError` (modelled by `none`) on an empty
expected set, and the GRPO notebook's `recall_score` returns `0.0`, not `1.0`. -/
theorem recall_empty_expected_cex :
    HybridVsVector.recall' ["a"] [] = none
    ∧ RagGrpo.recall_score ["doc"] [] = some 0
    ∧ some (0 : ℚ) ≠ some (1 : ℚ) := by
  refine ⟨by simp [HybridVsVector.recall', qdiv], by simp [RagGrpo.recall_score], by simp⟩

/-- C1 (amended): on an empty expected set, the tool-selection notebook's
`calculate_recall` returns `1.0` for every result list; the hybrid notebook's
`recall` raises `ZeroDivisionError`; the GRPO notebook's `recall_score`
returns `0.0`. -/
theorem recall_empty_expected_amended (result : List String) :
    ToolEval.calculate_recall result [] = some 1
    ∧ HybridVsVector.recall' result [] = none
    ∧ RagGrpo.recall_score result [] = some 0 := by
  refine ⟨by simp [ToolEval.calculate_recall], by simp [HybridVsVector.recall', qdiv],
    by simp [RagGrpo.recall_score]⟩

/-- C2: the spec says every dividing branch of precision, recall and
reciprocal_rank is guarded by an emptiness check.  Counterexample: the hybrid
notebook's `recall` divides by `len(expected)` unguarded, a division by zero at
`expected = []` (modelled by `none`). -/
theorem metrics_division_cex :
    HybridVsVector.recall' [] [] = none
    ∧ ∀ q : ℚ, HybridVsVector.recall' [] [] ≠ some q := by
  refine ⟨by simp [HybridVsVector.recall', qdiv], fun q => by simp [HybridVsVector.recall', qdiv]⟩

/-- C2 (amended): `calculate_precision`, `calculate_recall` and `mrr` are total
— every branch that divides is guarded (or has a positive rank divisor) — but
the hybrid notebook's `recall` succeeds exactly when the expected set is
non-empty. -/
theorem metrics_division_amended (result expected : List String) :
    (ToolEval.calculate_precision result expected).isSome
    ∧ (ToolEval.calculate_recall result expected).isSome
    ∧ (HybridVsVector.mrr result expected).isSome
    ∧ ((HybridVsVector.recall' result expected).isSome ↔ expected ≠ []) := by
  refine ⟨?_, ?_, ?_, ?_⟩
  · cases result with
    | nil => simp [ToolEval.calculate_precision]
    | cons x xs => simp [ToolEval.calculate_precision, qdivRound2]
  · cases expected with
    | nil => simp [ToolEval.calculate_recall]
    | cons x xs =>
      cases result with
      | nil => simp [ToolEval.calculate_recall]
      | cons y ys => simp [ToolEval.calculate_recall, qdivRound2]
  · rw [mrr_eq_mrrVal]; rfl
  · rw [HybridVsVector.recall', qdiv_natCast_isSome]
    simp

/-- C3: the spec says precision is `|result ∩ expected| / |result|` at full
precision, counting duplicates once, so `["a","a"]` against `{"a"}` should be
`0.5`.  Counterexample: `calculate_precision` counts every matching occurrence
and returns `1.0` there; it also rounds to two decimals inside the function
(`["a","b","c"]` vs `["b"]` gives exactly `33/100`, not `1/3`). -/
theorem precision_duplicates_cex :
    ToolEval.calculate_precision ["a", "a"] ["a"] = some 1
    ∧ (1 : ℚ) ≠ 1/2
    ∧ ToolEval.calculate_precision ["a", "b", "c"] ["b"] = some (33/100)
    ∧ (33/100 : ℚ) ≠ 1/3 := by
  refine ⟨by simp [ToolEval.calculate_precision, qdivRound2, pyRound2Nat, List.countP_cons],
    by norm_num,
    by simp [ToolEval.calculate_precision, qdivRound2, pyRound2Nat, List.countP_cons],
    by norm_num⟩

/-- C3 (amended): for a non-empty result list, `calculate_precision` returns
the number of result positions (occurrences, not distinct items) whose tool is
in the expected list, divided by the result length, rounded to two decimal
places inside the function. -/
theorem precision_occurrence_ratio (result expected : List String) (h : result ≠ []) :
    ToolEval.calculate_precision result expected =
      some (pyRound2Nat ((result.filter fun tool => decide (tool ∈ expected)).length)
        result.length) := by
  have hne : result.isEmpty = false := by simpa [List.isEmpty_iff] using h
  have hlen : result.length ≠ 0 := by simpa using h
  rw [ToolEval.calculate_precision, hne]
  simp only [Bool.false_eq_true, if_false, qdivRound2, hlen, if_neg hlen,
    List.countP_eq_length_filter]

/-- Witness for C3 (amended) at `result = ["a","a"]`, `expected = ["a"]`. -/
theorem precision_occurrence_ratio_witness :
    ToolEval.calculate_precision ["a", "a"] ["a"] =
      some (pyRound2Nat (((["a", "a"] : List String).filter
        fun tool => decide (tool ∈ (["a"] : List String))).length)
        (["a", "a"] : List String).length) :=
  precision_occurrence_ratio ["a", "a"] ["a"] (by simp)

/-- C5: `mrr` scans the result in rank order (1-indexed) and returns `1/rank`
at the first position whose item is expected, `0.0` when no item matches; in
particular a match at rank 1 scores `1.0` and a match at rank 2 scores `0.5`. -/
theorem mrr_first_match_reciprocal (retrieved expected : List String) :
    HybridVsVector.mrr retrieved expected = some (HybridVsVector.mrrVal retrieved expected)
    ∧ HybridVsVector.mrr ["x"] ["x"] = some 1
    ∧ HybridVsVector.mrr ["y", "x"] ["x"] = some (1/2) := by
  refine ⟨mrr_eq_mrrVal retrieved expected,
    by simp [HybridVsVector.mrr, HybridVsVector.mrrGo, qdiv],
    by simp [HybridVsVector.mrr, HybridVsVector.mrrGo, qdiv]⟩

/-- C6: `calculate_precision` of an empty result list is `0.0` for every
expected set, the empty one included — taking no action is never rewarded. -/
theorem precision_empty_result_zero (expected : List String) :
    ToolEval.calculate_precision [] expected = some 0
    ∧ ToolEval.calculate_precision [] [] = some 0 := by
  exact ⟨by simp [ToolEval.calculate_precision], by simp [ToolEval.calculate_precision]⟩

/-! ## Experiment-loop lemmas -/

theorem optMapList_eq_map {α β : Type} (f : α → Option β) (g : α → β) (l : List α)
    (h : ∀ x ∈ l, f x = some (g x)) : optMapList f l = some (l.map g) := by
  induction l with
  | nil => rfl
  | cons x xs ih =>
    rw [optMapList, h x (List.mem_cons_self x xs),
      ih fun y hy => h y (List.mem_cons_of_mem _ hy)]
    rfl

theorem npMean_eq (xs : List ℚ) (h : xs ≠ []) :
    HybridVsVector.npMean xs = some (HybridVsVector.meanVal xs) := by
  rw [HybridVsVector.npMean, if_neg, HybridVsVector.meanVal]
  simpa [List.isEmpty_iff] using h

theorem evaluate_search_eq (strategies : List (String × (String → ℕ → List String)))
    (queries : List (String × List String)) (k : ℕ)
    (he : ∀ q ∈ queries, q.2 ≠ []) :
    HybridVsVector.evaluate_search strategies queries k =
      some (strategies.map fun s => (s.1, queries.map fun q =>
        (HybridVsVector.recallVal (s.2 q.1 k) q.2,
         HybridVsVector.mrrVal (s.2 q.1 k) q.2))) := by
  rw [HybridVsVector.evaluate_search]
  apply optMapList_eq_map
  intro s _
  rw [optMapList_eq_map _ (fun q => (HybridVsVector.recallVal (s.2 q.1 k) q.2,
    HybridVsVector.mrrVal (s.2 q.1 k) q.2))]
  · rfl
  · intro q hq
    rw [show (do
        let r ← HybridVsVector.recall' (s.2 q.1 k) q.2
        let m ← HybridVsVector.mrr (s.2 q.1 k) q.2
        pure (r, m) : Option (ℚ × ℚ)) =
          (HybridVsVector.recall' (s.2 q.1 k) q.2).bind fun r =>
            (HybridVsVector.mrr (s.2 q.1 k) q.2).bind fun m => some (r, m) from rfl,
      recall_eq_recallVal _ _ (he q hq), mrr_eq_mrrVal]
    rfl

theorem aggregate_metrics_eq (metrics : List (String × List (ℚ × ℚ)))
    (h : ∀ mv ∈ metrics, mv.2 ≠ []) :
    HybridVsVector.aggregate_metrics metrics =
      some (metrics.map fun mv =>
        (mv.1, HybridVsVector.meanVal (mv.2.map Prod.fst),
         HybridVsVector.meanVal (mv.2.map Prod.snd))) := by
  rw [HybridVsVector.aggregate_metrics]
  apply optMapList_eq_map
  intro mv hmv
  have h1 : mv.2.map Prod.fst ≠ [] := fun hc => h mv hmv (by simpa using hc)
  have h2 : mv.2.map Prod.snd ≠ [] := fun hc => h mv hmv (by simpa using hc)
  rw [show (do
      let r ← HybridVsVector.npMean (mv.2.map Prod.fst)
      let m ← HybridVsVector.npMean (mv.2.map Prod.snd)
      pure (mv.1, r, m) : Option (String × ℚ × ℚ)) =
        (HybridVsVector.npMean (mv.2.map Prod.fst)).bind fun r =>
          (HybridVsVector.npMean (mv.2.map Prod.snd)).bind fun m =>
            some (mv.1, r, m) from rfl,
    npMean_eq _ h1, npMean_eq _ h2]
  rfl

/-- C9: the experiment loop produces, for each `k` of `k_values` in list order
(the source's `k_values = [3, 5, 10]` is ascending) and for each strategy in
registry insertion order, exactly one `(k, method, recall, mrr)` row whose
metric values are the arithmetic means of that group's per-query metrics; the
result is a pure function of the inputs — independent of any evaluation
completion order. -/
theorem run_experiment_rows (strategies : List (String × (String → ℕ → List String)))
    (queries : List (String × List String)) (k_values : List ℕ)
    (hq : queries ≠ []) (he : ∀ q ∈ queries, q.2 ≠ []) :
    HybridVsVector.run_experiment strategies queries k_values =
      some ((k_values.map fun k => strategies.map fun s =>
        (k, s.1,
          HybridVsVector.meanVal
            (queries.map fun q => HybridVsVector.recallVal (s.2 q.1 k) q.2),
          HybridVsVector.meanVal
            (queries.map fun q => HybridVsVector.mrrVal (s.2 q.1 k) q.2))).flatten) := by
  rw [HybridVsVector.run_experiment, optMapList_eq_map _ (fun k =>
    strategies.map fun s =>
      (k, s.1,
        HybridVsVector.meanVal
          (queries.map fun q => HybridVsVector.recallVal (s.2 q.1 k) q.2),
        HybridVsVector.meanVal
          (queries.map fun q => HybridVsVector.mrrVal (s.2 q.1 k) q.2)))]
  · rfl
  · intro k _
    have hmetrics : ∀ mv ∈ (strategies.map fun s => (s.1, queries.map fun q =>
        (HybridVsVector.recallVal (s.2 q.1 k) q.2,
         HybridVsVector.mrrVal (s.2 q.1 k) q.2))), mv.2 ≠ [] := by
      intro mv hmv
      obtain ⟨s, _, rfl⟩ := List.mem_map.mp hmv
      simpa using hq
    rw [show (do
        let metrics ← HybridVsVector.evaluate_search strategies queries k
        let summary ← HybridVsVector.aggregate_metrics metrics
        pure (summary.map fun row => (k, row.1, row.2.1, row.2.2)) :
          Option (List (ℕ × String × ℚ × ℚ))) =
          (HybridVsVector.evaluate_search strategies queries k).bind fun metrics =>
            (HybridVsVector.aggregate_metrics metrics).bind fun summary =>
              some (summary.map fun row => (k, row.1, row.2.1, row.2.2)) from rfl,
      evaluate_search_eq strategies queries k he, Option.some_bind,
      aggregate_metrics_eq _ hmetrics, Option.some_bind]
    simp [List.map_map, Function.comp_def]

/-- Witness for C9 at two fixed strategies, one labeled query, and
`k_values = [3, 5]`. -/
theorem run_experiment_rows_witness :
    HybridVsVector.run_experiment
        [("semantic", fun _ _ => ["1"]), ("lexical", fun _ _ => ["2"])]
        [("q", ["1"])] [3, 5] =
      some ((([3, 5] : List ℕ).map fun k =>
        ([("semantic", fun _ _ => ["1"]), ("lexical", fun _ _ => ["2"])] :
            List (String × (String → ℕ → List String))).map fun s =>
          (k, s.1,
            HybridVsVector.meanVal
              (([("q", ["1"])] : List (String × List String)).map fun q =>
                HybridVsVector.recallVal (s.2 q.1 k) q.2),
            HybridVsVector.meanVal
              (([("q", ["1"])] : List (String × List String)).map fun q =>
                HybridVsVector.mrrVal (s.2 q.1 k) q.2))).flatten) :=
  run_experiment_rows _ _ _ (by simp) (by simp)

/-! ## Run-loop lemmas -/

theorem gatherAll_error {α : Type} (outcomes : List (Except String α))
    (h : ∃ e, Except.error e ∈ outcomes) :
    ∃ e, ToolEval.gatherAll outcomes = Except.error e := by
  obtain ⟨e, he⟩ := h
  induction outcomes with
  | nil => cases he
  | cons o rest ih =>
    cases o with
    | error e' => exact ⟨e', rfl⟩
    | ok a =>
      have hmem : Except.error e ∈ rest := by
        cases List.mem_cons.mp he with
        | inl h => cases h
        | inr h => exact h
      obtain ⟨e', he'⟩ := ih hmem
      exact ⟨e', by simp [ToolEval.gatherAll, he', Except.map]⟩

theorem gatherAll_ok {α : Type} (outcomes : List (Except String α))
    (h : ∀ o ∈ outcomes, ∃ a, o = Except.ok a) :
    ∃ as : List α, ToolEval.gatherAll outcomes = Except.ok as
      ∧ as.length = outcomes.length := by
  induction outcomes with
  | nil => exact ⟨[], rfl, rfl⟩
  | cons o rest ih =>
    obtain ⟨a, rfl⟩ := h o (List.mem_cons_self o rest)
    obtain ⟨as, has, hlen⟩ := ih fun o ho => h o (List.mem_cons_of_mem _ ho)
    exact ⟨a :: as, by simp [ToolEval.gatherAll, has, Except.map], by simp [hlen]⟩

/-- C4: the spec says a failing adapter invocation is recorded as a `0/0/0`
cell and the run continues to a complete report.  Counterexample: the run loop
uses `asyncio.gather` without `return_exceptions`, so one raised error aborts
the whole run: no row list is produced at all. -/
theorem run_tests_abort_cex :
    ToolEval.run_tests [("q", ["send_email"])] [Except.error "boom"] = Except.error "boom"
    ∧ ∀ rows : List ToolEval.TestRow,
        ToolEval.run_tests [("q", ["send_email"])] [Except.error "boom"] ≠ Except.ok rows := by
  refine ⟨by simp [ToolEval.run_tests, ToolEval.gatherAll, Except.map], fun rows => ?_⟩
  simp [ToolEval.run_tests, ToolEval.gatherAll, Except.map]

/-- C4 (amended): if any adapter invocation raises, `asyncio.gather`
propagates the exception and the whole run aborts with it, producing no rows;
only when every invocation succeeds does the driver produce a complete result,
one scored row per test query. -/
theorem run_tests_gather_semantics (tests : List (String × List String))
    (outcomes : List (Except String (List String)))
    (hlen : outcomes.length = tests.length) :
    ((∃ e, Except.error e ∈ outcomes) →
      ∃ e, ToolEval.run_tests tests outcomes = Except.error e)
    ∧ ((∀ o ∈ outcomes, ∃ a, o = Except.ok a) →
      ∃ rows, ToolEval.run_tests tests outcomes = Except.ok rows
        ∧ rows.length = tests.length) := by
  constructor
  · intro h
    obtain ⟨e, he⟩ := gatherAll_error outcomes h
    exact ⟨e, by simp [ToolEval.run_tests, he, Except.map]⟩
  · intro h
    obtain ⟨as, has, hlen'⟩ := gatherAll_ok outcomes h
    exact ⟨(tests.zip as).map fun ta =>
        { query := ta.1.1, expected := ta.1.2, actual := ta.2,
          precision := ToolEval.calculate_precision ta.2 ta.1.2,
          recall' := ToolEval.calculate_recall ta.2 ta.1.2 },
      by simp [ToolEval.run_tests, has, Except.map],
      by simp [List.length_zip, hlen', hlen]⟩

/-- Witness for C4 (amended): a concrete two-query run whose second adapter
call raises aborts with that error. -/
theorem run_tests_gather_semantics_witness :
    ∃ e, ToolEval.run_tests [("q1", ["t"]), ("q2", ["u"])]
      [Except.ok ["t"], Except.error "boom"] = Except.error e :=
  (run_tests_gather_semantics [("q1", ["t"]), ("q2", ["u"])]
      [Except.ok ["t"], Except.error "boom"] rfl).1 ⟨"boom", by simp⟩

/-! ## Per-tool breakdown lemmas -/

theorem countExpected_eq_countP (df : List (List String × List String)) (tool : String) :
    ToolEval.countExpected df tool = df.countP fun r => decide (tool ∈ r.1) := by
  induction df with
  | nil => rfl
  | cons r rest ih =>
    by_cases h : tool ∈ r.1
    · simp [ToolEval.countExpected, List.countP_cons, h, ih]
      omega
    · simp [ToolEval.countExpected, List.countP_cons, h, ih]

theorem countCorrect_eq_countP (df : List (List String × List String)) (tool : String) :
    ToolEval.countCorrect df tool = df.countP fun r => decide (tool ∈ r.1 ∧ tool ∈ r.2) := by
  induction df with
  | nil => rfl
  | cons r rest ih =>
    by_cases h : tool ∈ r.1 ∧ tool ∈ r.2
    · simp [ToolEval.countCorrect, List.countP_cons, h, ih]
      omega
    · simp [ToolEval.countCorrect, List.countP_cons, h, ih]

theorem countExpected_append (df₁ df₂ : List (List String × List String)) (tool : String) :
    ToolEval.countExpected (df₁ ++ df₂) tool =
      ToolEval.countExpected df₁ tool + ToolEval.countExpected df₂ tool := by
  induction df₁ with
  | nil => simp [ToolEval.countExpected]
  | cons r rest ih => simp [ToolEval.countExpected, ih]; omega

theorem countCorrect_append (df₁ df₂ : List (List String × List String)) (tool : String) :
    ToolEval.countCorrect (df₁ ++ df₂) tool =
      ToolEval.countCorrect df₁ tool + ToolEval.countCorrect df₂ tool := by
  induction df₁ with
  | nil => simp [ToolEval.countCorrect]
  | cons r rest ih => simp [ToolEval.countCorrect, ih]; omega

theorem countCorrect_le_countExpected (df : List (List String × List String)) (tool : String) :
    ToolEval.countCorrect df tool ≤ ToolEval.countExpected df tool := by
  induction df with
  | nil => exact le_refl 0
  | cons r rest ih =>
    simp only [ToolEval.countCorrect, ToolEval.countExpected]
    by_cases h1 : tool ∈ r.1
    · by_cases h2 : tool ∈ r.2 <;> simp [h1, h2] <;> omega
    · have : ¬(tool ∈ r.1 ∧ tool ∈ r.2) := fun hc => h1 hc.1
      simp [h1, this]; omega

theorem pyRound2Nat_mul (g a b : ℕ) (hg : g ≠ 0) :
    pyRound2Nat (g * a) (g * b) = pyRound2Nat a b := by
  have hg' : 0 < g := Nat.pos_of_ne_zero hg
  simp only [pyRound2Nat]
  rw [show 100 * (g * a) = g * (100 * a) by ring, Nat.mul_div_mul_left _ _ hg',
    Nat.mul_mod_mul_left, show 2 * (g * (100 * a % b)) = g * (2 * (100 * a % b)) by ring]
  simp only [Nat.mul_lt_mul_left hg']

theorem pyRound2Nat_congr (a b c e : ℕ) (hb : b ≠ 0) (he : e ≠ 0) (h : a * e = c * b) :
    pyRound2Nat a b = pyRound2Nat c e := by
  rw [← pyRound2Nat_mul e a b he, ← pyRound2Nat_mul b c e hb,
    Nat.mul_comm e a, h, Nat.mul_comm c b, Nat.mul_comm e b]

theorem pyRound2_div_eq (c e : ℕ) (he : e ≠ 0) :
    pyRound2 ((c : ℚ) / (e : ℚ)) = pyRound2Nat c e := by
  set q : ℚ := (c : ℚ) / (e : ℚ) with hq
  have he' : (e : ℚ) ≠ 0 := Nat.cast_ne_zero.mpr he
  have hden : (q.den : ℚ) ≠ 0 := Nat.cast_ne_zero.mpr q.pos.ne'
  have hq0 : 0 ≤ q := div_nonneg (Nat.cast_nonneg c) (Nat.cast_nonneg e)
  have hnum0 : 0 ≤ q.num := Rat.num_nonneg.mpr hq0
  have hcrossQ : (q.num : ℚ) * e = (c : ℚ) * q.den := by
    have h3 := Rat.num_div_den q
    have h4 : (q.num : ℚ) / (q.den : ℚ) = (c : ℚ) / (e : ℚ) := by rw [h3]
    field_simp at h4
    exact h4
  have hcross : q.num.toNat * e = c * q.den := by
    have h5 : (q.num.toNat : ℚ) = (q.num : ℚ) := by
      exact_mod_cast congrArg (fun z : ℤ => (z : ℚ)) (Int.toNat_of_nonneg hnum0)
    have h6 : ((q.num.toNat * e : ℕ) : ℚ) = ((c * q.den : ℕ) : ℚ) := by
      push_cast
      rw [h5, hcrossQ]
    exact_mod_cast h6
  rw [pyRound2]
  exact pyRound2Nat_congr q.num.toNat q.den c e q.pos.ne' he hcross

theorem pyRound2_zero : pyRound2 0 = 0 := by
  simp [pyRound2, pyRound2Nat]

theorem insertDescByRecall_perm (row : ToolEval.ToolRow) (l : List ToolEval.ToolRow) :
    (ToolEval.insertDescByRecall row l).Perm (row :: l) := by
  induction l with
  | nil => exact List.Perm.refl _
  | cons r rest ih =>
    rw [ToolEval.insertDescByRecall]
    by_cases h : row.recall' < r.recall'
    · rw [if_pos h]
      exact (ih.cons r).trans (List.Perm.swap row r rest)
    · rw [if_neg h]

theorem sortDescByRecall_perm (l : List ToolEval.ToolRow) :
    (ToolEval.sortDescByRecall l).Perm l := by
  induction l with
  | nil => exact List.Perm.refl _
  | cons r rest ih =>
    exact (insertDescByRecall_perm r _).trans (ih.cons r)

theorem per_tool_results_map_tool (df : List (List String × List String)) :
    (ToolEval.per_tool_results df).map ToolEval.ToolRow.tool = ToolEval.all_tools df := by
  rw [ToolEval.per_tool_results, List.map_map]
  have hcomp : (ToolEval.ToolRow.tool ∘ fun tool => ToolEval.ToolRow.mk tool
      (ToolEval.countCorrect df tool) (ToolEval.countExpected df tool)
      (if 0 < ToolEval.countExpected df tool then
        (ToolEval.countCorrect df tool : ℚ) / ToolEval.countExpected df tool
      else 0)) = id := rfl
  rw [hcomp, List.map_id]

theorem calculate_per_tool_recall_map_tool_perm (df : List (List String × List String)) :
    ((ToolEval.calculate_per_tool_recall df).map ToolEval.ToolRow.tool).Perm
      (ToolEval.all_tools df) := by
  rw [ToolEval.calculate_per_tool_recall, List.map_map]
  have hcomp : (ToolEval.ToolRow.tool ∘ fun row =>
      { row with recall' := pyRound2 row.recall' }) = ToolEval.ToolRow.tool := rfl
  rw [hcomp, ← per_tool_results_map_tool df]
  exact (sortDescByRecall_perm _).map _

/-- C8 (amended): the per-tool breakdown counts `expected_calls` as the number
of queries whose expected set contains the tool, `correct_calls` as the number
of queries whose expected set AND actual set both contain it; a query where
the tool was retrieved but not expected increments neither counter (appending
such a row leaves both tallies unchanged); and the tool's returned row reports
`recall = round(correct_calls / expected_calls, 2)` when `expected_calls > 0`
(the `.round(2)` applied to the returned dataframe). -/
theorem per_tool_counting_rule (df : List (List String × List String)) (tool : String)
    (h : tool ∈ ToolEval.all_tools df) :
    ∃ row ∈ ToolEval.calculate_per_tool_recall df,
      row.tool = tool
      ∧ row.expected_calls = df.countP (fun r => decide (tool ∈ r.1))
      ∧ row.correct_calls = df.countP (fun r => decide (tool ∈ r.1 ∧ tool ∈ r.2))
      ∧ (∀ e a : List String, tool ∉ e →
          ToolEval.countExpected (df ++ [(e, a)]) tool = row.expected_calls
          ∧ ToolEval.countCorrect (df ++ [(e, a)]) tool = row.correct_calls)
      ∧ (0 < row.expected_calls →
          row.recall' = pyRound2Nat row.correct_calls row.expected_calls) := by
  have hmem0 : ToolEval.ToolRow.mk tool (ToolEval.countCorrect df tool)
      (ToolEval.countExpected df tool)
      (if 0 < ToolEval.countExpected df tool then
        (ToolEval.countCorrect df tool : ℚ) / ToolEval.countExpected df tool
      else 0) ∈ ToolEval.per_tool_results df := List.mem_map_of_mem _ h
  have hmem1 := ((sortDescByRecall_perm (ToolEval.per_tool_results df)).mem_iff).mpr hmem0
  refine ⟨_, List.mem_map_of_mem (fun row => { row with recall' := pyRound2 row.recall' }) hmem1,
    rfl, countExpected_eq_countP df tool, countCorrect_eq_countP df tool, ?_, ?_⟩
  · intro e a he
    constructor
    · rw [countExpected_append]
      simp [ToolEval.countExpected, he]
    · rw [countCorrect_append]
      have : ¬(tool ∈ e ∧ tool ∈ a) := fun hc => he hc.1
      simp [ToolEval.countCorrect, this]
  · intro hpos
    simp only at hpos ⊢
    rw [if_pos hpos]
    exact pyRound2_div_eq _ _ hpos.ne'

/-- Witness for C8 at `df = [(["t"], ["t"])]`, `tool = "t"`. -/
theorem per_tool_counting_rule_witness :
    ∃ row ∈ ToolEval.calculate_per_tool_recall [((["t"] : List String), (["t"] : List String))],
      row.tool = "t"
      ∧ row.expected_calls =
          [((["t"] : List String), (["t"] : List String))].countP
            (fun r => decide ("t" ∈ r.1))
      ∧ row.correct_calls =
          [((["t"] : List String), (["t"] : List String))].countP
            (fun r => decide ("t" ∈ r.1 ∧ "t" ∈ r.2))
      ∧ (∀ e a : List String, "t" ∉ e →
          ToolEval.countExpected ([((["t"] : List String), (["t"] : List String))] ++ [(e, a)]) "t"
              = row.expected_calls
          ∧ ToolEval.countCorrect ([((["t"] : List String), (["t"] : List String))] ++ [(e, a)]) "t"
              = row.correct_calls)
      ∧ (0 < row.expected_calls →
          row.recall' = pyRound2Nat row.correct_calls row.expected_calls) :=
  per_tool_counting_rule [((["t"] : List String), (["t"] : List String))] "t"
    (by simp [ToolEval.all_tools])

/-- C8: the claim says the tool's row reports the exact ratio
`correct_calls / expected_calls`.  Counterexample: the returned dataframe goes
through `.round(2)`, so for a tool expected in three queries and retrieved in
two of them the reported recall is `0.67`, not `2/3`. -/
theorem per_tool_rounding_cex :
    ToolEval.calculate_per_tool_recall
        [((["t"] : List String), (["t"] : List String)),
         ((["t"] : List String), (["t"] : List String)),
         ((["t"] : List String), ([] : List String))] =
      [⟨"t", 2, 3, 67/100⟩]
    ∧ (67/100 : ℚ) ≠ 2/3 := by
  constructor
  · have hb : pyRound2 ((2 : ℚ) / 3) = pyRound2Nat 2 3 := by
      have h := pyRound2_div_eq 2 3 (by norm_num)
      norm_num at h
      exact h
    simp [ToolEval.calculate_per_tool_recall, ToolEval.per_tool_results, ToolEval.all_tools,
      ToolEval.countExpected, ToolEval.countCorrect, ToolEval.sortDescByRecall,
      ToolEval.insertDescByRecall, List.dedup_cons_of_not_mem, List.dedup_cons_of_mem,
      hb, pyRound2Nat]
  · norm_num

/-- C10: the per-tool breakdown has a row for every tool occurring in any
expected or any actual list, and a row whose tool was never expected reports
`correct_calls = 0` and `recall = 0` through the explicit `expected_calls > 0`
guard, never a division by zero. -/
theorem per_tool_breakdown_safety (df : List (List String × List String)) (tool : String) :
    (tool ∈ (ToolEval.calculate_per_tool_recall df).map ToolEval.ToolRow.tool ↔
      ∃ r ∈ df, tool ∈ r.1 ∨ tool ∈ r.2)
    ∧ (∀ row ∈ ToolEval.calculate_per_tool_recall df,
        row.expected_calls = 0 → row.correct_calls = 0 ∧ row.recall' = 0) := by
  constructor
  · rw [(calculate_per_tool_recall_map_tool_perm df).mem_iff, ToolEval.all_tools]
    simp only [List.mem_dedup, List.mem_flatten, List.mem_map]
    constructor
    · rintro ⟨l, ⟨r, hr, rfl⟩, hl⟩
      exact ⟨r, hr, by simpa using hl⟩
    · rintro ⟨r, hr, hor⟩
      exact ⟨r.1 ++ r.2, ⟨r, hr, rfl⟩, by simpa using hor⟩
  · intro row hrow hzero
    rw [ToolEval.calculate_per_tool_recall] at hrow
    obtain ⟨row', hrow', rfl⟩ := List.mem_map.mp hrow
    have hrow'' : row' ∈ ToolEval.per_tool_results df :=
      ((sortDescByRecall_perm (ToolEval.per_tool_results df)).mem_iff).mp hrow'
    rw [ToolEval.per_tool_results] at hrow''
    obtain ⟨t, _, rfl⟩ := List.mem_map.mp hrow''
    simp only at hzero
    have hcor : ToolEval.countCorrect df t = 0 :=
      Nat.le_zero.mp (hzero ▸ countCorrect_le_countExpected df t)
    refine ⟨hcor, ?_⟩
    simp only [hzero, hcor]
    simp [pyRound2_zero]

/-- Witness for C10 at `df = [(["e"], ["a"])]`, `tool = "a"` (a tool only ever
retrieved, never expected: its row is `correct_calls = 0`, `expected_calls = 0`,
`recall = 0`). -/
theorem per_tool_breakdown_safety_witness :
    (⟨"a", 0, 0, 0⟩ : ToolEval.ToolRow).correct_calls = 0
    ∧ (⟨"a", 0, 0, 0⟩ : ToolEval.ToolRow).recall' = 0 :=
  (per_tool_breakdown_safety [((["e"] : List String), (["a"] : List String))] "a").2
    ⟨"a", 0, 0, 0⟩
    (by simp [ToolEval.calculate_per_tool_recall, ToolEval.per_tool_results, ToolEval.all_tools,
      ToolEval.countExpected, ToolEval.countCorrect, ToolEval.sortDescByRecall,
      ToolEval.insertDescByRecall, List.dedup_cons_of_not_mem, List.dedup_cons_of_mem,
      pyRound2_zero])
    rfl


/-- C7: scenario D — for `result=["a","b","c"]`, `expected=["b"]`: precision is
`0.33` (rounded), recall is `1.0`, and the reciprocal rank is `0.5` (match at
rank 2). -/
theorem scenario_D_values :
    ToolEval.calculate_precision ["a", "b", "c"] ["b"] = some (33/100)
    ∧ ToolEval.calculate_recall ["a", "b", "c"] ["b"] = some 1
    ∧ HybridVsVector.mrr ["a", "b", "c"] ["b"] = some (1/2) := by
  refine ⟨by simp [ToolEval.calculate_precision, qdivRound2, pyRound2Nat, List.countP_cons],
    by simp [ToolEval.calculate_recall, qdivRound2, pyRound2Nat, List.countP_cons],
    by simp [HybridVsVector.mrr, HybridVsVector.mrrGo, qdiv]⟩
